import Mathlib

/-!
Verification of the uCli console (src/console.c, src/console.h) against its
natural-language specification.

Shallow embedding conventions:
* Bytes are `Nat` (the C code works on `unsigned char`; all relevant
  comparisons are on values below 256).
* The input buffer `consoleInputBuffer` and each history slot of
  `commandHistory` are modelled as total functions `Nat → Nat`.  A cell the
  program never wrote holds 0, matching the zero-initialised C statics.
  Modelling arrays as total functions keeps out-of-bounds writes observable
  (the code contains one: the unguarded tilde append in
  `handlePrintableChar`), instead of silently dropping them.
* C loops that walk a NUL-terminated string are modelled with an explicit
  fuel argument (`consoleFuel`).  Every state exercised by the theorems
  below has its terminating NUL well inside the fuel bound, so the fuel
  never runs out on any input the theorems touch.
* The `print` sink is modelled by accumulating the emitted bytes in the
  `output` field.  The `debug_print` sink and the allocation behaviour of
  `parseToArgv` are modelled separately (`parseToArgvA`) because they do
  not influence the console state machine.
* Command handlers are external collaborators (the spec excludes their
  bodies); invoking one does not change the console state in this model.
-/

/-- CONSOLE_BUFFER_SIZE from console.h. -/
def CONSOLE_BUFFER_SIZE : Nat := 128

/-- CONSOLE_HISTORY_LENGTH from console.h. -/
def CONSOLE_HISTORY_LENGTH : Nat := 4

/-- Fuel bound for the NUL-terminated string walks.  All states reached in
the theorems below keep their strings far below this bound. -/
def consoleFuel : Nat := 600

/-- Pointwise store: the effect of the C assignment `buf[p] = v`. -/
def updateF (buf : Nat → Nat) (p v : Nat) : Nat → Nat :=
  fun i => if i = p then v else buf i

/-- The C `isspace` on the byte range the console can see: space (0x20) and
the control characters 0x09..0x0D. -/
def isspaceB (b : Nat) : Bool :=
  b == 32 || (Nat.ble 9 b && Nat.ble b 13)

/-- The strtok delimiter set " \t\r\n" used by parseToArgv and by the
whitespace-truncation loop in processCommand. -/
def isTokDelim (b : Nat) : Bool :=
  b == 32 || b == 9 || b == 13 || b == 10

/-- Reads the NUL-terminated string starting at index `i` (the effect of
printing with "%s"). -/
def readCStrF : Nat → (Nat → Nat) → Nat → List Nat
  | 0, _, _ => []
  | fuel + 1, buf, i => if buf i = 0 then [] else buf i :: readCStrF fuel buf (i + 1)

/-- One step of `strcmp(a, b) == 0`: walks both strings from index `i`. -/
def strcmpEqAux (a b : Nat → Nat) : Nat → Nat → Bool
  | 0, _ => true
  | fuel + 1, i =>
    if a i = b i then (if a i = 0 then true else strcmpEqAux a b fuel (i + 1)) else false

/-- `strcmp(a, b) == 0` on the NUL-terminated strings starting at index 0,
as used by handleEnter to compare the input buffer with the most recent
history slot. -/
def strcmpEq (a b : Nat → Nat) : Bool :=
  strcmpEqAux a b consoleFuel 0

/-- First loop of stripLeadingWhiteSpace: advance `idx` while the byte is
nonzero and isspace. -/
def firstNonWSF : Nat → (Nat → Nat) → Nat → Nat
  | 0, _, i => i
  | fuel + 1, buf, i =>
    if 0 < buf i ∧ isspaceB (buf i) = true then firstNonWSF fuel buf (i + 1) else i

/-- Second loop of stripLeadingWhiteSpace: `while (cmd[idx]) cmd[copy++] =
cmd[idx++]; cmd[copy] = 0`. -/
def shiftLoop : Nat → (Nat → Nat) → Nat → Nat → (Nat → Nat)
  | 0, buf, _, copy => updateF buf copy 0
  | fuel + 1, buf, idx, copy =>
    if 0 < buf idx then shiftLoop fuel (updateF buf copy (buf idx)) (idx + 1) (copy + 1)
    else updateF buf copy 0

/-- stripLeadingWhiteSpace from console.c, acting on the buffer. -/
def stripLeadingWhiteSpaceF (buf : Nat → Nat) : Nat → Nat :=
  let idx := firstNonWSF consoleFuel buf 0
  if 0 < idx then shiftLoop consoleFuel buf idx 0 else buf

/-- The C `strlen` (first NUL at or after index `i`). -/
def strlenF : Nat → (Nat → Nat) → Nat → Nat
  | 0, _, i => i
  | fuel + 1, buf, i => if 0 < buf i then strlenF fuel buf (i + 1) else i

/-- Loop of stripTrailingWhiteSpace: walk back from the end zeroing isspace
bytes, stopping at the first non-space. -/
def stripTrailLoop : Nat → (Nat → Nat) → Nat → (Nat → Nat)
  | _, buf, 0 => buf
  | 0, buf, _ + 1 => buf
  | fuel + 1, buf, i + 1 =>
    if isspaceB (buf i) = true then stripTrailLoop fuel (updateF buf i 0) i else buf

/-- stripTrailingWhiteSpace from console.c, acting on the buffer. -/
def stripTrailingWhiteSpaceF (buf : Nat → Nat) : Nat → Nat :=
  stripTrailLoop consoleFuel buf (strlenF consoleFuel buf 0)

/-- strtok: skip delimiter bytes from index `i`. -/
def skipDelimsF : Nat → (Nat → Nat) → Nat → Nat
  | 0, _, i => i
  | fuel + 1, buf, i =>
    if isTokDelim (buf i) = true then skipDelimsF fuel buf (i + 1) else i

/-- strtok: advance from a token start to its end (first delimiter or NUL). -/
def tokenEndF : Nat → (Nat → Nat) → Nat → Nat
  | 0, _, i => i
  | fuel + 1, buf, i =>
    if buf i = 0 ∨ isTokDelim (buf i) = true then i else tokenEndF fuel buf (i + 1)

/-- The in-place effect of the repeated strtok calls in parseToArgv: each
token that ends at a delimiter gets that delimiter overwritten with NUL. -/
def strtokNullLoop : Nat → (Nat → Nat) → Nat → (Nat → Nat)
  | 0, buf, _ => buf
  | fuel + 1, buf, i =>
    let q := skipDelimsF consoleFuel buf i
    if buf q = 0 then buf
    else
      let r := tokenEndF consoleFuel buf q
      if buf r = 0 then buf
      else strtokNullLoop fuel (updateF buf r 0) (r + 1)

/-- The buffer mutation performed by parseToArgv (via strtok); the argv
collection itself is modelled at the list level by `parseToArgvA`. -/
def parseToArgvBufF (buf : Nat → Nat) : Nat → Nat :=
  strtokNullLoop consoleFuel buf 0

/-- The whitespace-truncation loop in processCommand (writes one NUL at the
first delimiter before the terminating NUL, if any). -/
def truncLoopF : Nat → (Nat → Nat) → Nat → (Nat → Nat)
  | 0, buf, _ => buf
  | fuel + 1, buf, i =>
    if buf i = 0 then buf
    else if isTokDelim (buf i) = true then updateF buf i 0
    else truncLoopF fuel buf (i + 1)

/-- The total effect of processCommand on the input buffer: strip leading
and trailing whitespace, tokenize in place, truncate at the first
delimiter.  Dispatching the handler does not touch the console state. -/
def processCommandBuf (buf : Nat → Nat) : Nat → Nat :=
  truncLoopF consoleFuel (parseToArgvBufF (stripTrailingWhiteSpaceF (stripLeadingWhiteSpaceF buf))) 0

/-- The console state: the static variables of console.c (minus the command
table and I/O descriptor, which the claims treat only through the
list-level dispatch model), plus the bytes emitted through the print
sink. -/
structure ConsoleState where
  consoleInputBuffer : Nat → Nat
  inputPosition : Nat
  commandHistory : Nat → Nat → Nat
  historyPosition : Nat → Nat
  historyInsert : Nat
  historyOutput : Nat
  historyInsertWrap : Nat
  historyOutputWrap : Nat
  upArrowCount : Nat
  output : List Nat

/-- All statics are zero-initialised. -/
def initConsoleState : ConsoleState where
  consoleInputBuffer := fun _ => 0
  inputPosition := 0
  commandHistory := fun _ _ => 0
  historyPosition := fun _ => 0
  historyInsert := 0
  historyOutput := 0
  historyInsertWrap := 0
  historyOutputWrap := 0
  upArrowCount := 0
  output := []

/-- Append bytes to the print sink. -/
def emit (s : ConsoleState) (bs : List Nat) : ConsoleState :=
  { s with output := s.output ++ bs }

/-- handleBackspace from console.c.  Note the unconditional
`consoleInputBuffer[inputPosition] = 0` after the guarded block. -/
def handleBackspace (s : ConsoleState) : ConsoleState :=
  let s1 :=
    if 0 < s.inputPosition then
      { emit s [8, 32, 8] with inputPosition := s.inputPosition - 1 }
    else s
  { s1 with consoleInputBuffer := updateF s1.consoleInputBuffer s1.inputPosition 0 }

/-- increaseCommandIndex from console.c: advance modulo
CONSOLE_HISTORY_LENGTH, returning (new index, wrapped flag). -/
def increaseCommandIndex (cmdIdx : Nat) : Nat × Nat :=
  let localIdx := cmdIdx + 1
  if localIdx = CONSOLE_HISTORY_LENGTH then (0, 1) else (localIdx, 0)

/-- The descending loop of flushCommandBuffer: for cursorPos down to 1,
print the destructive backspace and zero `consoleInputBuffer[cursorPos]`. -/
def flushLoop (s : ConsoleState) : Nat → ConsoleState
  | 0 => s
  | p + 1 =>
    flushLoop
      (emit { s with consoleInputBuffer := updateF s.consoleInputBuffer (p + 1) 0 } [8, 32, 8]) p

/-- flushCommandBuffer from console.c: erase the displayed line, then
`memcpy(cmdBuf, cmdSrc, cmdLen)` (here cmdBuf is always the input
buffer). -/
def flushCommandBuffer (s : ConsoleState) (cursorPos : Nat) (cmdSrc : Nat → Nat) (cmdLen : Nat) :
    ConsoleState :=
  let s1 := flushLoop s cursorPos
  { s1 with
    consoleInputBuffer := fun i => if i < cmdLen then cmdSrc i else s1.consoleInputBuffer i }

/-- handleArrow from console.c, acting on historyOutput (the only index the
callers pass).  direction = -1 is up (older), 1 is down (newer). -/
def handleArrow (s : ConsoleState) (direction : Int) : ConsoleState :=
  if direction = -1 ∧
      ((s.historyOutputWrap = 1 ∧ s.historyOutput = s.historyInsert) ∨
        (s.historyInsertWrap = 0 ∧ s.historyOutput = 0)) then s
  else if direction = 1 ∧ s.upArrowCount ≤ 1 then s
  else
    let s0 :=
      if direction = -1 then { s with upArrowCount := s.upArrowCount + 1 }
      else if direction = 1 then { s with upArrowCount := s.upArrowCount - 1 }
      else s
    let s1 := flushCommandBuffer s0 s0.inputPosition
        (s0.commandHistory s0.historyOutput) (s0.historyPosition s0.historyOutput)
    let s2 := { s1 with inputPosition := s1.historyPosition s1.historyOutput }
    let s3 := { s2 with
      consoleInputBuffer := updateF s2.consoleInputBuffer (s2.inputPosition + 1) 0 }
    let s4 := emit s3 (readCStrF consoleFuel s3.consoleInputBuffer 0)
    if direction = -1 then
      if s4.historyInsertWrap = 1 then
        if s4.historyOutput = 0 then
          { s4 with historyOutput := CONSOLE_HISTORY_LENGTH - 1, historyOutputWrap := 1 }
        else { s4 with historyOutput := s4.historyOutput - 1 }
      else
        if s4.historyOutput ≠ 0 then { s4 with historyOutput := s4.historyOutput - 1 } else s4
    else if direction = 1 then
      { s4 with historyOutput := (increaseCommandIndex s4.historyOutput).1 }
    else s4

/-- handleArrowKey from console.c: `c` is the byte read after the
introducer; 0x41 is up, 0x42 down, anything else ignored. -/
def handleArrowKey (s : ConsoleState) (c : Nat) : ConsoleState :=
  if c = 65 then handleArrow s (-1)
  else if c = 66 then handleArrow s 1
  else s

/-- handlePrintableChar from console.c.  The first block appends bytes in
[0x20, 0x7A] under the bounds check; the second block appends 0x7E with no
bounds check (mirrored faithfully). -/
def handlePrintableChar (s : ConsoleState) (c : Nat) : ConsoleState :=
  let s1 :=
    if s.inputPosition < CONSOLE_BUFFER_SIZE - 1 ∧ 32 ≤ c ∧ c ≤ 122 then
      let buf2 := updateF (updateF s.consoleInputBuffer s.inputPosition c) (s.inputPosition + 1) 0
      emit { s with consoleInputBuffer := buf2, inputPosition := s.inputPosition + 1 }
        (readCStrF consoleFuel buf2 s.inputPosition)
    else s
  if c = 126 then
    let buf2 := updateF (updateF s1.consoleInputBuffer s1.inputPosition c) (s1.inputPosition + 1) 0
    emit { s1 with consoleInputBuffer := buf2, inputPosition := s1.inputPosition + 1 }
      (readCStrF consoleFuel buf2 s1.inputPosition)
  else s1

/-- handleEnter from console.c: CRLF; if the line is nonempty, push it to
history when it differs from the slot at historyInsert, reset the replay
cursor, run processCommand (whose only console-state effect is the
in-place buffer mutation), clear the buffer, CRLF; always reprint the
prompt. -/
def handleEnter (s : ConsoleState) : ConsoleState :=
  let s1 := emit s [13, 10]
  if s1.inputPosition ≠ 0 then
    let s2 :=
      if strcmpEq s1.consoleInputBuffer (s1.commandHistory s1.historyInsert) then s1
      else
        let r := increaseCommandIndex s1.historyInsert
        { s1 with
          historyInsert := r.1
          historyInsertWrap := if r.2 = 1 then 1 else s1.historyInsertWrap
          commandHistory := fun k =>
            if k = r.1 then
              (fun i => if i < CONSOLE_BUFFER_SIZE then s1.consoleInputBuffer i
                        else s1.commandHistory r.1 i)
            else s1.commandHistory k
          historyPosition := fun k =>
            if k = r.1 then s1.inputPosition else s1.historyPosition k }
    let s3 := { s2 with
      historyOutput := s2.historyInsert, historyOutputWrap := 0, upArrowCount := 0 }
    let s4 := { s3 with consoleInputBuffer := processCommandBuf s3.consoleInputBuffer }
    let s5 := { s4 with
      inputPosition := 0
      consoleInputBuffer := fun i =>
        if i < CONSOLE_BUFFER_SIZE then 0 else s4.consoleInputBuffer i }
    emit (emit s5 [13, 10]) [62, 32]
  else emit s1 [62, 32]

/-- One byte through consoleHandler, for every byte except the escape
introducer 0x5B (which needs a second byte and is handled in runBytes). -/
def consoleStep (s : ConsoleState) (c : Nat) : ConsoleState :=
  if c = 8 ∨ c = 127 then handleBackspace s
  else if c = 13 then handleEnter s
  else handlePrintableChar s c

/-- Feed a byte sequence through consoleHandler.  On 0x5B the handler
synchronously reads one more byte (handleArrowKey); a trailing lone 0x5B
blocks on getchar, leaving the state unchanged. -/
def runBytes : ConsoleState → List Nat → ConsoleState
  | s, [] => s
  | s, [c] => if c = 91 then s else consoleStep s c
  | s, c :: d :: rest =>
    if c = 91 then runBytes (handleArrowKey s d) rest
    else runBytes (consoleStep s c) (d :: rest)

/-- The byte array holding line `X` after it has been typed into a freshly
cleared buffer: the bytes of `X`, then zeros. -/
def mkBuf (X : List Nat) : Nat → Nat :=
  fun i => X.getD i 0

/-- Committing line `X`: the buffer holds `X` (freshly typed after the
previous commit cleared the buffer), the cursor is at its length, and
Enter is received. -/
def commitLine (s : ConsoleState) (X : List Nat) : ConsoleState :=
  handleEnter { s with consoleInputBuffer := mkBuf X, inputPosition := X.length }

/-- Number of history slots holding a pushed line.  handleEnter advances
historyInsert before writing, so before the first wrap the occupied slots
are 1..historyInsert; once historyInsertWrap is set every slot has been
written. -/
def ringOccupancy (s : ConsoleState) : Nat :=
  if s.historyInsertWrap = 1 then CONSOLE_HISTORY_LENGTH else s.historyInsert

/-- stripLeadingWhiteSpace on the finite byte list of a committed line (the
in-place left shift of the array is a dropWhile on the line bytes). -/
def stripLeadingWhiteSpaceL (l : List Nat) : List Nat :=
  l.dropWhile (fun b => isspaceB b)

/-- stripTrailingWhiteSpace on the finite byte list of a committed line
(zeroing the trailing isspace bytes removes the maximal isspace suffix). -/
def stripTrailingWhiteSpaceL (l : List Nat) : List Nat :=
  (l.reverse.dropWhile (fun b => isspaceB b)).reverse

/-- The strtok call loop of parseToArgv: skip delimiter runs, collect
maximal delimiter-free runs.  The fuel only bounds the recursion; every
call site passes at least the list length plus one, and each step consumes
at least one list element, so the fuel never runs out. -/
def strtokSplitGo : Nat → List Nat → List (List Nat)
  | 0, _ => []
  | _, [] => []
  | fuel + 1, b :: l =>
    if isTokDelim b then strtokSplitGo fuel l
    else (b :: l.takeWhile (fun x => !isTokDelim x)) ::
      strtokSplitGo fuel (l.dropWhile (fun x => !isTokDelim x))

/-- The token sequence produced by the repeated strtok calls in
parseToArgv. -/
def strtokSplit (l : List Nat) : List (List Nat) :=
  strtokSplitGo (l.length + 1) l

/-- The tokenization pipeline applied to a committed line by
processCommand: strip leading and trailing whitespace, then split with
strtok. -/
def tokenizeLine (l : List Nat) : List (List Nat) :=
  strtokSplit (stripTrailingWhiteSpaceL (stripLeadingWhiteSpaceL l))

/-- Result of parseToArgv under an allocation oracle: the returned argc,
the collected argv, whether an allocation failed, and how many
allocation-failure messages went to the debug sink. -/
structure ParseResult where
  argc : Int
  argv : List (List Nat)
  failed : Bool
  allocFailMsgs : Nat

/-- The token-collection loop of parseToArgv.  `allocOk n` tells whether
the n-th allocation (0 = the initial malloc, then one per realloc)
succeeds.  On `argc >= max_args` the argv array is reallocated to twice
the capacity; a failed allocation prints one debug message and returns
argc = -1 with argv lost (the C code leaves *argv NULL). -/
def parseArgvLoop (allocOk : Nat → Bool) :
    List (List Nat) → List (List Nat) → Nat → Nat → Nat → ParseResult
  | [], acc, argc, _, _ =>
    { argc := Int.ofNat argc, argv := acc.reverse, failed := false, allocFailMsgs := 0 }
  | t :: ts, acc, argc, maxArgs, allocIdx =>
    if maxArgs ≤ argc then
      if allocOk allocIdx then
        parseArgvLoop allocOk ts (t :: acc) (argc + 1) (maxArgs * 2) (allocIdx + 1)
      else { argc := -1, argv := [], failed := true, allocFailMsgs := 1 }
    else parseArgvLoop allocOk ts (t :: acc) (argc + 1) maxArgs allocIdx

/-- parseToArgv from console.c under an allocation oracle: the initial
malloc of 10 slots, then the collection loop. -/
def parseToArgvA (allocOk : Nat → Bool) (tokens : List (List Nat)) : ParseResult :=
  if allocOk 0 then parseArgvLoop allocOk tokens [] 0 10 1
  else { argc := -1, argv := [], failed := true, allocFailMsgs := 1 }

/-- The dispatch decision of processCommand: tokenize the line, parse under
the allocation oracle, and call executeCommand only when argc > 0. -/
def processCommandA (allocOk : Nat → Bool) (line : List Nat) : ParseResult × Bool :=
  let r := parseToArgvA allocOk (tokenizeLine line)
  (r, decide (0 < r.argc))

/-- Byte sequence: commit "a", "b", "c", then up, up, up, down.  The down
arrow replays the never-written slot 0 (its recorded length is 0), leaving
the buffer holding a stale byte at index 0 with the cursor at 0. -/
def seqHistBug : List Nat := [97, 13, 98, 13, 99, 13, 91, 65, 91, 65, 91, 65, 91, 66]

/-- The reachable state produced by `seqHistBug`. -/
def sHistBug : ConsoleState := runBytes initConsoleState seqHistBug

/-- Commit "a", "b", "c", "d" (four distinct lines), then up, up: the
display shows "c" and historyOutput points two slots older. -/
def sRoundPre : ConsoleState :=
  runBytes initConsoleState [97, 13, 98, 13, 99, 13, 100, 13, 91, 65, 91, 65]

/-- One more up then one down from `sRoundPre`. -/
def sRoundPost : ConsoleState := runBytes sRoundPre [91, 65, 91, 66]

/-- Commit "ls", "pwd", "ls" from the initial state. -/
def sLsPwdLs : ConsoleState :=
  runBytes initConsoleState [108, 115, 13, 112, 119, 100, 13, 108, 115, 13]

/-- Successive up-arrow presses from `sLsPwdLs`. -/
def sLsUp1 : ConsoleState := runBytes sLsPwdLs [91, 65]

/-- Second up-arrow press. -/
def sLsUp2 : ConsoleState := runBytes sLsUp1 [91, 65]

/-- Third up-arrow press. -/
def sLsUp3 : ConsoleState := runBytes sLsUp2 [91, 65]

/-- Fourth up-arrow press (refused). -/
def sLsUp4 : ConsoleState := runBytes sLsUp3 [91, 65]

/-- Three distinct commits "a", "b", "c". -/
def sCommits3 : ConsoleState := runBytes initConsoleState [97, 13, 98, 13, 99, 13]

/-- Fourth distinct commit "d". -/
def sCommits4 : ConsoleState := runBytes sCommits3 [100, 13]

/-- Fifth distinct commit "e". -/
def sCommits5 : ConsoleState := runBytes sCommits4 [101, 13]

/-- A buffer filled with 127 printable bytes (cursor at capacity - 1). -/
def sFullBuf : ConsoleState := runBytes initConsoleState (List.replicate 127 97)

/-- The committed line of the C8 scenario: "  foo   bar  ". -/
def demoLine : List Nat := [32, 32, 102, 111, 111, 32, 32, 32, 98, 97, 114, 32, 32]

/-- The token "foo". -/
def fooTok : List Nat := [102, 111, 111]

/-- The token "bar". -/
def barTok : List Nat := [98, 97, 114]

/-- A buffer holds no 0x5B byte. -/
def NoLBBuf (buf : Nat → Nat) : Prop := ∀ i, buf i ≠ 91

/-- Neither the input buffer nor any history slot holds a 0x5B byte. -/
def NoLB (s : ConsoleState) : Prop :=
  NoLBBuf s.consoleInputBuffer ∧ ∀ k, NoLBBuf (s.commandHistory k)

set_option maxRecDepth 8000

@[simp] theorem emit_consoleInputBuffer (s : ConsoleState) (bs : List Nat) :
    (emit s bs).consoleInputBuffer = s.consoleInputBuffer := rfl

@[simp] theorem emit_inputPosition (s : ConsoleState) (bs : List Nat) :
    (emit s bs).inputPosition = s.inputPosition := rfl

@[simp] theorem emit_commandHistory (s : ConsoleState) (bs : List Nat) :
    (emit s bs).commandHistory = s.commandHistory := rfl

@[simp] theorem emit_historyPosition (s : ConsoleState) (bs : List Nat) :
    (emit s bs).historyPosition = s.historyPosition := rfl

@[simp] theorem emit_historyInsert (s : ConsoleState) (bs : List Nat) :
    (emit s bs).historyInsert = s.historyInsert := rfl

@[simp] theorem emit_historyOutput (s : ConsoleState) (bs : List Nat) :
    (emit s bs).historyOutput = s.historyOutput := rfl

@[simp] theorem emit_historyInsertWrap (s : ConsoleState) (bs : List Nat) :
    (emit s bs).historyInsertWrap = s.historyInsertWrap := rfl

@[simp] theorem emit_historyOutputWrap (s : ConsoleState) (bs : List Nat) :
    (emit s bs).historyOutputWrap = s.historyOutputWrap := rfl

@[simp] theorem emit_upArrowCount (s : ConsoleState) (bs : List Nat) :
    (emit s bs).upArrowCount = s.upArrowCount := rfl

/-- If the two strings agree up to the NUL that terminates `a` at index
`n`, the strcmp walk reports them equal (given enough fuel). -/
theorem strcmpEqAux_eq_true (a b : Nat → Nat) (n : Nat)
    (hab : ∀ j, j ≤ n → a j = b j) (hnz : ∀ j, j < n → 0 < a j) (hn : a n = 0) :
    ∀ fuel i, i ≤ n → n - i < fuel → strcmpEqAux a b fuel i = true := by
  intro fuel
  induction fuel with
  | zero => intro i _ hf; omega
  | succ f ih =>
    intro i hi hf
    rcases Nat.lt_or_ge i n with hlt | hge
    · have hne : a i ≠ 0 := Nat.pos_iff_ne_zero.mp (hnz i hlt)
      rw [strcmpEqAux, if_pos (hab i hi), if_neg hne]
      exact ih (i + 1) hlt (by omega)
    · have hin : i = n := Nat.le_antisymm hi hge
      subst hin
      rw [strcmpEqAux, if_pos (hab i le_rfl), if_pos hn]

/-- A freshly typed line strcmp-equals the 128-byte history copy that
handleEnter just made of it. -/
theorem strcmpEq_mkBuf_copy (X : List Nat) (old : Nat → Nat)
    (hlen : X.length ≤ 127) (hpos : ∀ b ∈ X, 0 < b) :
    strcmpEq (mkBuf X) (fun i => if i < CONSOLE_BUFFER_SIZE then mkBuf X i else old i) = true := by
  apply strcmpEqAux_eq_true (mkBuf X) _ X.length
  · intro j hj
    have hj128 : j < CONSOLE_BUFFER_SIZE := by simp only [CONSOLE_BUFFER_SIZE]; omega
    rw [if_pos hj128]
  · intro j hj
    have heq : mkBuf X j = X[j] := List.getD_eq_getElem X 0 hj
    rw [heq]
    exact hpos _ (List.getElem_mem hj)
  · simp [mkBuf, List.getD_eq_default X 0 le_rfl]
  · exact Nat.zero_le _
  · simp only [consoleFuel]; omega

/-- After a nonempty Enter whose line strcmp-equals the newest history
slot, handleEnter leaves all history fields unchanged (no push). -/
theorem handleEnter_fields_eq (s : ConsoleState) (h : s.inputPosition ≠ 0)
    (hc : strcmpEq s.consoleInputBuffer (s.commandHistory s.historyInsert) = true) :
    (handleEnter s).commandHistory = s.commandHistory ∧
    (handleEnter s).historyPosition = s.historyPosition ∧
    (handleEnter s).historyInsert = s.historyInsert ∧
    (handleEnter s).historyInsertWrap = s.historyInsertWrap := by
  simp [handleEnter, h, hc]

/-- After a nonempty Enter whose line differs from the newest history
slot, handleEnter pushes: the insert index advances and the new slot holds
the first 128 bytes of the line. -/
theorem handleEnter_fields_push (s : ConsoleState) (h : s.inputPosition ≠ 0)
    (hc : strcmpEq s.consoleInputBuffer (s.commandHistory s.historyInsert) = false) :
    (handleEnter s).historyInsert = (increaseCommandIndex s.historyInsert).1 ∧
    (handleEnter s).historyInsertWrap =
      (if (increaseCommandIndex s.historyInsert).2 = 1 then 1 else s.historyInsertWrap) ∧
    (handleEnter s).commandHistory = (fun k =>
      if k = (increaseCommandIndex s.historyInsert).1 then
        (fun i => if i < CONSOLE_BUFFER_SIZE then s.consoleInputBuffer i
                  else s.commandHistory (increaseCommandIndex s.historyInsert).1 i)
      else s.commandHistory k) ∧
    (handleEnter s).historyPosition = (fun k =>
      if k = (increaseCommandIndex s.historyInsert).1 then s.inputPosition
      else s.historyPosition k) := by
  simp [handleEnter, h, hc]

/-- C5: for every line X and every history state, committing X twice in a
row grows the ring by at most one entry: the second commit compares X with
the slot at insertIndex (which then holds the copy the first commit made,
or an already-equal line) and does not push, so insert index, wrap flag,
every slot, every recorded length, and hence the ring occupancy are the
same after commit(X), commit(X) as after a single commit(X).  The line is
nonempty, NUL-free, and fits the buffer. -/
theorem claim_C5 (s : ConsoleState) (X : List Nat) (h0 : 0 < X.length)
    (hlen : X.length ≤ 127) (hpos : ∀ b ∈ X, 0 < b) :
    ringOccupancy (commitLine (commitLine s X) X) = ringOccupancy (commitLine s X) ∧
    (commitLine (commitLine s X) X).historyInsert = (commitLine s X).historyInsert ∧
    (commitLine (commitLine s X) X).historyInsertWrap = (commitLine s X).historyInsertWrap ∧
    (∀ k i, (commitLine (commitLine s X) X).commandHistory k i
      = (commitLine s X).commandHistory k i) ∧
    (∀ k, (commitLine (commitLine s X) X).historyPosition k
      = (commitLine s X).historyPosition k) := by
  have hB : X.length ≠ 0 := by omega
  have hkey : strcmpEq (mkBuf X)
      ((commitLine s X).commandHistory ((commitLine s X).historyInsert)) = true := by
    cases hc : strcmpEq (mkBuf X) (s.commandHistory s.historyInsert) with
    | true =>
      obtain ⟨e1, _, e3, _⟩ := handleEnter_fields_eq
        { s with consoleInputBuffer := mkBuf X, inputPosition := X.length } hB hc
      simp only [commitLine]
      rw [e1, e3]
      exact hc
    | false =>
      obtain ⟨p1, _, p3, _⟩ := handleEnter_fields_push
        { s with consoleInputBuffer := mkBuf X, inputPosition := X.length } hB hc
      simp only [commitLine]
      rw [p3, p1]
      simp only [if_pos rfl]
      exact strcmpEq_mkBuf_copy X _ hlen hpos
  obtain ⟨f1, f2, f3, f4⟩ := handleEnter_fields_eq
    { commitLine s X with consoleInputBuffer := mkBuf X, inputPosition := X.length } hB hkey
  refine ⟨?_, ?_, ?_, ?_, ?_⟩
  · simp only [commitLine, ringOccupancy] at f3 f4 ⊢
    rw [f3, f4]
  · simp only [commitLine] at f3 ⊢
    rw [f3]
  · simp only [commitLine] at f4 ⊢
    rw [f4]
  · intro k i
    simp only [commitLine] at f1 ⊢
    rw [f1]
  · intro k
    simp only [commitLine] at f2 ⊢
    rw [f2]

/-- Witness for C5 at the concrete line "x" from the initial state. -/
theorem claim_C5_witness :
    (0 < [120].length ∧ [120].length ≤ 127 ∧ ∀ b ∈ [120], 0 < b) ∧
    ringOccupancy (commitLine (commitLine initConsoleState [120]) [120])
      = ringOccupancy (commitLine initConsoleState [120]) := by
  refine ⟨by decide, ?_⟩
  exact (claim_C5 initConsoleState [120] (by decide) (by decide) (by decide)).1

theorem noLBBuf_updateF {buf : Nat → Nat} (h : NoLBBuf buf) {p v : Nat} (hv : v ≠ 91) :
    NoLBBuf (updateF buf p v) := by
  intro i
  simp only [updateF]
  split
  · exact hv
  · exact h i

theorem flushLoop_commandHistory : ∀ (p : Nat) (s : ConsoleState),
    (flushLoop s p).commandHistory = s.commandHistory := by
  intro p
  induction p with
  | zero => intro s; rfl
  | succ q ih => intro s; rw [flushLoop, ih]; rfl

theorem flushLoop_noLB : ∀ (p : Nat) (s : ConsoleState), NoLB s → NoLB (flushLoop s p) := by
  intro p
  induction p with
  | zero => intro s h; exact h
  | succ q ih =>
    intro s h
    rw [flushLoop]
    exact ih _ ⟨noLBBuf_updateF h.1 (by omega), h.2⟩

theorem flushCommandBuffer_noLB (s : ConsoleState) (pos len : Nat) (src : Nat → Nat)
    (h : NoLB s) (hsrc : NoLBBuf src) : NoLB (flushCommandBuffer s pos src len) := by
  rw [flushCommandBuffer]
  refine ⟨?_, ?_⟩
  · intro i
    dsimp only
    split
    · exact hsrc i
    · exact (flushLoop_noLB pos s h).1 i
  · intro k
    have hfl := flushLoop_commandHistory pos s
    dsimp only
    rw [hfl]
    exact h.2 k

theorem handleArrowTail_noLB (s0 : ConsoleState) (d : Int) (h : NoLB s0) :
    NoLB (
      let s1 := flushCommandBuffer s0 s0.inputPosition (s0.commandHistory s0.historyOutput)
        (s0.historyPosition s0.historyOutput)
      let s2 := { s1 with inputPosition := s1.historyPosition s1.historyOutput }
      let s3 := { s2 with
        consoleInputBuffer := updateF s2.consoleInputBuffer (s2.inputPosition + 1) 0 }
      let s4 := emit s3 (readCStrF consoleFuel s3.consoleInputBuffer 0)
      if d = -1 then
        if s4.historyInsertWrap = 1 then
          if s4.historyOutput = 0 then
            { s4 with historyOutput := CONSOLE_HISTORY_LENGTH - 1, historyOutputWrap := 1 }
          else { s4 with historyOutput := s4.historyOutput - 1 }
        else
          if s4.historyOutput ≠ 0 then { s4 with historyOutput := s4.historyOutput - 1 } else s4
      else if d = 1 then
        { s4 with historyOutput := (increaseCommandIndex s4.historyOutput).1 }
      else s4) := by
  have h1 : NoLB (flushCommandBuffer s0 s0.inputPosition (s0.commandHistory s0.historyOutput)
      (s0.historyPosition s0.historyOutput)) :=
    flushCommandBuffer_noLB _ _ _ _ h (h.2 _)
  dsimp only
  split
  · split
    · split
      · exact ⟨noLBBuf_updateF h1.1 (by omega), h1.2⟩
      · exact ⟨noLBBuf_updateF h1.1 (by omega), h1.2⟩
    · split
      · exact ⟨noLBBuf_updateF h1.1 (by omega), h1.2⟩
      · exact ⟨noLBBuf_updateF h1.1 (by omega), h1.2⟩
  · split
    · exact ⟨noLBBuf_updateF h1.1 (by omega), h1.2⟩
    · exact ⟨noLBBuf_updateF h1.1 (by omega), h1.2⟩

theorem handleArrow_noLB (s : ConsoleState) (d : Int) (h : NoLB s) : NoLB (handleArrow s d) := by
  rw [handleArrow]
  split
  · exact h
  split
  · exact h
  have hs0 : NoLB (if d = -1 then { s with upArrowCount := s.upArrowCount + 1 }
      else if d = 1 then { s with upArrowCount := s.upArrowCount - 1 } else s) := by
    split
    · exact ⟨h.1, h.2⟩
    split
    · exact ⟨h.1, h.2⟩
    · exact h
  exact handleArrowTail_noLB _ d hs0

theorem shiftLoop_noLB : ∀ (fuel : Nat) (buf : Nat → Nat) (idx copy : Nat), NoLBBuf buf →
    NoLBBuf (shiftLoop fuel buf idx copy) := by
  intro fuel
  induction fuel with
  | zero =>
    intro buf idx copy h
    exact noLBBuf_updateF h (by omega)
  | succ f ih =>
    intro buf idx copy h
    rw [shiftLoop]
    split
    · exact ih _ _ _ (noLBBuf_updateF h (h idx))
    · exact noLBBuf_updateF h (by omega)

theorem stripLeading_noLB (buf : Nat → Nat) (h : NoLBBuf buf) :
    NoLBBuf (stripLeadingWhiteSpaceF buf) := by
  rw [stripLeadingWhiteSpaceF]
  split
  · exact shiftLoop_noLB _ _ _ _ h
  · exact h

theorem stripTrailLoop_noLB : ∀ (fuel : Nat) (i : Nat) (buf : Nat → Nat), NoLBBuf buf →
    NoLBBuf (stripTrailLoop fuel buf i) := by
  intro fuel
  induction fuel with
  | zero =>
    intro i buf h
    cases i with
    | zero => exact h
    | succ j => exact h
  | succ f ih =>
    intro i buf h
    cases i with
    | zero => exact h
    | succ j =>
      rw [stripTrailLoop]
      split
      · exact ih _ _ (noLBBuf_updateF h (by omega))
      · exact h

theorem strtokNullLoop_noLB : ∀ (fuel : Nat) (i : Nat) (buf : Nat → Nat), NoLBBuf buf →
    NoLBBuf (strtokNullLoop fuel buf i) := by
  intro fuel
  induction fuel with
  | zero => intro i buf h; exact h
  | succ f ih =>
    intro i buf h
    rw [strtokNullLoop]
    dsimp only
    split
    · exact h
    · split
      · exact h
      · exact ih _ _ (noLBBuf_updateF h (by omega))

theorem truncLoopF_noLB : ∀ (fuel : Nat) (i : Nat) (buf : Nat → Nat), NoLBBuf buf →
    NoLBBuf (truncLoopF fuel buf i) := by
  intro fuel
  induction fuel with
  | zero => intro i buf h; exact h
  | succ f ih =>
    intro i buf h
    rw [truncLoopF]
    split
    · exact h
    · split
      · exact noLBBuf_updateF h (by omega)
      · exact ih _ _ h

theorem processCommandBuf_noLB (buf : Nat → Nat) (h : NoLBBuf buf) :
    NoLBBuf (processCommandBuf buf) :=
  truncLoopF_noLB _ _ _ (strtokNullLoop_noLB _ _ _ (stripTrailLoop_noLB _ _ _ (stripLeading_noLB _ h)))

theorem handleBackspace_noLB (s : ConsoleState) (h : NoLB s) : NoLB (handleBackspace s) := by
  rw [handleBackspace]
  dsimp only
  split
  · exact ⟨noLBBuf_updateF h.1 (by omega), h.2⟩
  · exact ⟨noLBBuf_updateF h.1 (by omega), h.2⟩

theorem handlePrintableChar_noLB (s : ConsoleState) (c : Nat) (hc : c ≠ 91) (h : NoLB s) :
    NoLB (handlePrintableChar s c) := by
  rw [handlePrintableChar]
  dsimp only
  split
  · split
    · exact ⟨noLBBuf_updateF (noLBBuf_updateF (noLBBuf_updateF (noLBBuf_updateF h.1 hc)
        (by omega)) (by omega)) (by omega), h.2⟩
    · exact ⟨noLBBuf_updateF (noLBBuf_updateF h.1 hc) (by omega), h.2⟩
  · split
    · exact ⟨noLBBuf_updateF (noLBBuf_updateF h.1 (by omega)) (by omega), h.2⟩
    · exact h

theorem handleEnter_noLB (s : ConsoleState) (h : NoLB s) : NoLB (handleEnter s) := by
  simp only [handleEnter, emit_consoleInputBuffer, emit_inputPosition, emit_commandHistory,
    emit_historyPosition, emit_historyInsert, emit_historyInsertWrap]
  split
  · split
    · refine ⟨?_, ?_⟩
      · intro i
        simp only [emit_consoleInputBuffer]
        split
        · omega
        · exact processCommandBuf_noLB _ h.1 i
      · intro k
        simp only [emit_commandHistory]
        exact h.2 k
    · refine ⟨?_, ?_⟩
      · intro i
        simp only [emit_consoleInputBuffer]
        split
        · omega
        · exact processCommandBuf_noLB _ h.1 i
      · intro k i
        simp only [emit_commandHistory]
        split
        · dsimp only
          split
          · exact h.1 i
          · exact h.2 _ i
        · exact h.2 k i
  · exact ⟨h.1, h.2⟩

theorem handleArrowKey_noLB (s : ConsoleState) (c : Nat) (h : NoLB s) :
    NoLB (handleArrowKey s c) := by
  rw [handleArrowKey]
  split
  · exact handleArrow_noLB s _ h
  · split
    · exact handleArrow_noLB s _ h
    · exact h

theorem consoleStep_noLB (s : ConsoleState) (c : Nat) (hc : c ≠ 91) (h : NoLB s) :
    NoLB (consoleStep s c) := by
  rw [consoleStep]
  split
  · exact handleBackspace_noLB s h
  · split
    · exact handleEnter_noLB s h
    · exact handlePrintableChar_noLB s c hc h

theorem runBytes_noLB : ∀ (n : Nat) (l : List Nat), l.length ≤ n →
    ∀ s : ConsoleState, NoLB s → NoLB (runBytes s l) := by
  intro n
  induction n with
  | zero =>
    intro l hl s h
    have : l = [] := List.eq_nil_of_length_eq_zero (Nat.le_zero.mp hl)
    subst this
    exact h
  | succ m ih =>
    intro l hl s h
    match l with
    | [] => exact h
    | [c] =>
      rw [runBytes]
      split
      · exact h
      · exact consoleStep_noLB s c (by assumption) h
    | c :: d :: rest =>
      rw [runBytes]
      split
      · exact ih rest (by simp at hl; omega) _ (handleArrowKey_noLB s d h)
      · exact ih (d :: rest) (by simp at hl; simp; omega) _
          (consoleStep_noLB s c (by assumption) h)

/-- C10: the byte 0x5B, although inside the printable range, is never
appended: consoleHandler routes it to handleArrowKey, which reads exactly
one more byte; consequently no reachable input buffer or history slot
(hence no committed line) ever contains 0x5B.  The second conjunct states
the two-byte consumption of the escape introducer. -/
theorem claim_C10 :
    (∀ bytes : List Nat,
      (∀ i, (runBytes initConsoleState bytes).consoleInputBuffer i ≠ 91) ∧
      (∀ k i, (runBytes initConsoleState bytes).commandHistory k i ≠ 91)) ∧
    (∀ (s : ConsoleState) (d : Nat) (rest : List Nat),
      runBytes s (91 :: d :: rest) = runBytes (handleArrowKey s d) rest) := by
  constructor
  · intro bytes
    have hinit : NoLB initConsoleState := by
      constructor
      · intro i
        show (0 : Nat) ≠ 91
        omega
      · intro k i
        show (0 : Nat) ≠ 91
        omega
    have h := runBytes_noLB bytes.length bytes le_rfl initConsoleState hinit
    exact ⟨h.1, h.2⟩
  · intro s d rest
    rfl

/-- Witness for C10 at the concrete byte sequence "a". -/
theorem claim_C10_witness :
    (runBytes initConsoleState [97]).consoleInputBuffer 0 ≠ 91 :=
  (claim_C10.1 [97]).1 0

theorem strtokSplitGo_tokens : ∀ (fuel : Nat) (l : List Nat),
    ∀ t ∈ strtokSplitGo fuel l, 0 < t.length ∧ ∀ b ∈ t, isTokDelim b = false := by
  intro fuel
  induction fuel with
  | zero =>
    intro l t ht
    simp [strtokSplitGo] at ht
  | succ m ih =>
    intro l t ht
    match l with
    | [] => simp [strtokSplitGo] at ht
    | b :: l2 =>
      rw [strtokSplitGo] at ht
      by_cases hd : isTokDelim b = true
      · rw [if_pos hd] at ht
        exact ih l2 t ht
      · rw [if_neg hd] at ht
        rcases List.mem_cons.mp ht with h1 | h2
        · subst h1
          refine ⟨by simp, ?_⟩
          intro x hx
          rcases List.mem_cons.mp hx with hx1 | hx2
          · subst hx1
            simpa using hd
          · have := List.mem_takeWhile_imp hx2
            simpa using this
        · exact ih _ t h2

/-- C8: processCommand tokenizes the committed line by stripping leading
and trailing whitespace and splitting on runs of space, tab, CR, LF into
non-empty delimiter-free tokens; in particular "  foo   bar  " yields
exactly the tokens "foo" and "bar" in that order. -/
theorem claim_C8 :
    tokenizeLine demoLine = [fooTok, barTok] ∧
    ∀ (l t : List Nat), t ∈ tokenizeLine l → 0 < t.length ∧ ∀ b ∈ t, isTokDelim b = false := by
  constructor
  · decide
  · intro l t ht
    exact strtokSplitGo_tokens _ _ t ht

/-- Witness for C8: the token "foo" of the scenario line is a non-empty
delimiter-free member of the tokenization. -/
theorem claim_C8_witness :
    fooTok ∈ tokenizeLine demoLine ∧ 0 < fooTok.length ∧ ∀ b ∈ fooTok, isTokDelim b = false := by
  refine ⟨by decide, ?_, ?_⟩
  · exact (claim_C8.2 demoLine fooTok (by decide)).1
  · exact (claim_C8.2 demoLine fooTok (by decide)).2

theorem parseArgvLoop_fail (allocOk : Nat → Bool) :
    ∀ (ts acc : List (List Nat)) (argc maxArgs allocIdx : Nat),
      (parseArgvLoop allocOk ts acc argc maxArgs allocIdx).failed = true →
      (parseArgvLoop allocOk ts acc argc maxArgs allocIdx).argc = -1 ∧
      0 < (parseArgvLoop allocOk ts acc argc maxArgs allocIdx).allocFailMsgs ∧
      (parseArgvLoop allocOk ts acc argc maxArgs allocIdx).argv = [] := by
  intro ts
  induction ts with
  | nil =>
    intro acc argc maxArgs allocIdx hf
    simp [parseArgvLoop] at hf
  | cons t ts2 ih =>
    intro acc argc maxArgs allocIdx hf
    rw [parseArgvLoop] at hf ⊢
    split at hf
    · split at hf
      · rw [if_pos (by assumption), if_pos (by assumption)]
        exact ih _ _ _ _ hf
      · rw [if_pos (by assumption), if_neg (by assumption)]
        exact ⟨rfl, Nat.one_pos, rfl⟩
    · rw [if_neg (by assumption)]
      exact ih _ _ _ _ hf

/-- C9: if an allocation fails during parseToArgv, the failure path
returns argc = -1 with the argument list lost, one failure message goes to
the debug sink, and processCommand does not dispatch the command (the
dispatch guard argc > 0 is false).  The console state itself is never
touched by parseToArgv: in handleEnter the history push happens before
processCommand runs, and processCommand only mutates the input buffer,
which handleEnter then clears. -/
theorem claim_C9 (allocOk : Nat → Bool) (line : List Nat)
    (hf : (parseToArgvA allocOk (tokenizeLine line)).failed = true) :
    (parseToArgvA allocOk (tokenizeLine line)).argc = -1 ∧
    0 < (parseToArgvA allocOk (tokenizeLine line)).allocFailMsgs ∧
    (parseToArgvA allocOk (tokenizeLine line)).argv = [] ∧
    (processCommandA allocOk line).2 = false := by
  have hmain : (parseToArgvA allocOk (tokenizeLine line)).argc = -1 ∧
      0 < (parseToArgvA allocOk (tokenizeLine line)).allocFailMsgs ∧
      (parseToArgvA allocOk (tokenizeLine line)).argv = [] := by
    rw [parseToArgvA] at hf ⊢
    split at hf
    · rw [if_pos (by assumption)]
      exact parseArgvLoop_fail allocOk _ _ _ _ _ hf
    · rw [if_neg (by assumption)]
      exact ⟨rfl, Nat.one_pos, rfl⟩
  refine ⟨hmain.1, hmain.2.1, hmain.2.2, ?_⟩
  rw [processCommandA]
  dsimp only
  rw [hmain.1]
  rfl

/-- Witness for C9 with an oracle that fails the very first malloc, on the
line "foo". -/
theorem claim_C9_witness :
    (parseToArgvA (fun _ => false) (tokenizeLine fooTok)).failed = true ∧
    ((parseToArgvA (fun _ => false) (tokenizeLine fooTok)).argc = -1 ∧
      0 < (parseToArgvA (fun _ => false) (tokenizeLine fooTok)).allocFailMsgs ∧
      (parseToArgvA (fun _ => false) (tokenizeLine fooTok)).argv = [] ∧
      (processCommandA (fun _ => false) fooTok).2 = false) :=
  ⟨by decide, claim_C9 (fun _ => false) fooTok (by decide)⟩

/-- C1: evaluation at the failing input of the claim.  With the buffer full
(cursor = N-1 = 127, terminator in place), a received 0x7E byte is NOT
dropped: the unguarded second block of handlePrintableChar appends it,
moving the cursor to 128 and writing 0x7E at index 127 (and the new
terminator at index 128, outside the 128-byte array).  The claim says the
byte is silently dropped with buffer and cursor unchanged. -/
theorem claim_C1 :
    sFullBuf.inputPosition = 127 ∧
    sFullBuf.consoleInputBuffer 127 = 0 ∧
    (handlePrintableChar sFullBuf 126).inputPosition = 128 ∧
    (handlePrintableChar sFullBuf 126).consoleInputBuffer 127 = 126 := by
  decide

/-- C2: evaluation at the failing input of the claim.  After committing
"a","b","c","d" and pressing up twice, the display shows "c" (byte 99,
cursor 1) with upCount = 2, so the next down step is not refused.  One
more up then one down leaves the buffer holding "a" (byte 97), not the
"c" the round-trip claim requires: the down arrow displays the slot at
outputIndex before incrementing it, landing two entries older. -/
theorem claim_C2 :
    sRoundPre.upArrowCount = 2 ∧
    sRoundPre.inputPosition = 1 ∧
    sRoundPre.consoleInputBuffer 0 = 99 ∧
    sRoundPost.upArrowCount = 2 ∧
    sRoundPost.inputPosition = 1 ∧
    sRoundPost.consoleInputBuffer 0 = 97 := by
  decide

/-- C6: evaluation at the failing input of the claim.  After committing
"a","b","c" and pressing up three times and down once, the down step
replays the never-written slot 0 (recorded length 0): flushCommandBuffer
zeroes only indices 1..cursor, the memcpy copies 0 bytes, and the
termination write goes to index cursor+1 = 1, so the reachable state has
cursor = 0 while buffer[0] still holds the byte 97 — buffer[cursor] is not
the NUL terminator. -/
theorem claim_C6 :
    sHistBug.inputPosition = 0 ∧ sHistBug.consoleInputBuffer 0 = 97 := by
  decide

/-- Counterexample for C7: in the reachable state produced by `seqHistBug`
the cursor is 0 and buffer[0] = 97; a backspace received there emits no
output but overwrites buffer[0] with 0, so the input buffer is NOT
unchanged as the claim states. -/
theorem claim_C7_counterexample :
    sHistBug.inputPosition = 0 ∧
    sHistBug.consoleInputBuffer 0 = 97 ∧
    (handleBackspace sHistBug).consoleInputBuffer 0 = 0 ∧
    (handleBackspace sHistBug).output = sHistBug.output := by
  decide

/-- C7 (amended): a backspace received at cursor 0 emits no output bytes,
leaves the cursor at 0, and leaves the buffer unchanged except for the
unconditional write of a NUL at index 0 — so the buffer is entirely
unchanged exactly when buffer[0] was already 0, which holds in every state
satisfying the intended termination invariant. -/
theorem claim_C7 (s : ConsoleState) (h : s.inputPosition = 0) :
    (handleBackspace s).output = s.output ∧
    (handleBackspace s).inputPosition = 0 ∧
    (handleBackspace s).consoleInputBuffer 0 = 0 ∧
    (∀ i, 0 < i → (handleBackspace s).consoleInputBuffer i = s.consoleInputBuffer i) ∧
    (s.consoleInputBuffer 0 = 0 → handleBackspace s = s) := by
  rw [handleBackspace, if_neg (by omega)]
  dsimp only
  rw [h]
  refine ⟨rfl, rfl, ?_, ?_, ?_⟩
  · simp [updateF]
  · intro i hi
    simp only [updateF]
    rw [if_neg (by omega)]
  · intro h0
    have hb : updateF s.consoleInputBuffer 0 0 = s.consoleInputBuffer := by
      funext j
      simp only [updateF]
      split
      · subst j
        exact h0.symm
      · rfl
    rw [hb, ← h]

/-- Witness for C7 at the initial state (cursor 0, buffer[0] = 0). -/
theorem claim_C7_witness :
    initConsoleState.inputPosition = 0 ∧
    ((handleBackspace initConsoleState).output = initConsoleState.output ∧
      (handleBackspace initConsoleState).inputPosition = 0 ∧
      (handleBackspace initConsoleState).consoleInputBuffer 0 = 0 ∧
      (∀ i, 0 < i → (handleBackspace initConsoleState).consoleInputBuffer i
        = initConsoleState.consoleInputBuffer i) ∧
      (initConsoleState.consoleInputBuffer 0 = 0 →
        handleBackspace initConsoleState = initConsoleState)) :=
  ⟨rfl, claim_C7 initConsoleState rfl⟩

/-- Counterexample for C3: after committing "ls","pwd","ls", the FIRST up
arrow replaces the buffer with "ls" (bytes 108,115, cursor 2) — the most
recent commit — not with "pwd" (first byte 112) as the claim states. -/
theorem claim_C3_counterexample :
    sLsUp1.consoleInputBuffer 0 = 108 ∧
    sLsUp1.consoleInputBuffer 1 = 115 ∧
    sLsUp1.consoleInputBuffer 2 = 0 ∧
    sLsUp1.inputPosition = 2 ∧
    ((sLsUp1.consoleInputBuffer 0 == 112) = false) := by
  decide

/-- C3 (amended): committing "ls","pwd","ls" pushes all three lines (slots
1,2,3) with insertWrapped still false; the first up press shows "ls" (the
most recent), the second "pwd", the third the first "ls"; the fourth press
is refused because !insertWrapped and outputIndex = 0, leaving cursor,
upCount, outputIndex, buffer, and the output sink untouched. -/
theorem claim_C3 :
    (sLsPwdLs.commandHistory 1 0 = 108 ∧ sLsPwdLs.commandHistory 1 1 = 115 ∧
      sLsPwdLs.commandHistory 1 2 = 0) ∧
    (sLsPwdLs.commandHistory 2 0 = 112 ∧ sLsPwdLs.commandHistory 2 1 = 119 ∧
      sLsPwdLs.commandHistory 2 2 = 100 ∧ sLsPwdLs.commandHistory 2 3 = 0) ∧
    (sLsPwdLs.commandHistory 3 0 = 108 ∧ sLsPwdLs.commandHistory 3 1 = 115 ∧
      sLsPwdLs.commandHistory 3 2 = 0) ∧
    sLsPwdLs.historyInsertWrap = 0 ∧
    sLsPwdLs.historyInsert = 3 ∧
    (sLsUp1.consoleInputBuffer 0 = 108 ∧ sLsUp1.consoleInputBuffer 1 = 115 ∧
      sLsUp1.inputPosition = 2) ∧
    (sLsUp2.consoleInputBuffer 0 = 112 ∧ sLsUp2.consoleInputBuffer 1 = 119 ∧
      sLsUp2.consoleInputBuffer 2 = 100 ∧ sLsUp2.inputPosition = 3) ∧
    (sLsUp3.consoleInputBuffer 0 = 108 ∧ sLsUp3.consoleInputBuffer 1 = 115 ∧
      sLsUp3.inputPosition = 2) ∧
    (sLsUp3.historyInsertWrap = 0 ∧ sLsUp3.historyOutput = 0) ∧
    (sLsUp4.inputPosition = sLsUp3.inputPosition ∧
      sLsUp4.upArrowCount = sLsUp3.upArrowCount ∧
      sLsUp4.historyOutput = sLsUp3.historyOutput ∧
      sLsUp4.output = sLsUp3.output ∧
      sLsUp4.consoleInputBuffer 0 = sLsUp3.consoleInputBuffer 0) := by
  decide

/-- Counterexample for C4: after exactly H = 4 distinct commits
("a","b","c","d"), insertWrapped is already 1, contradicting the claim
that it is still false after H distinct commits and first becomes true on
the (H+1)-th. -/
theorem claim_C4_counterexample :
    sCommits3.historyInsertWrap = 0 ∧ sCommits4.historyInsertWrap = 1 := by
  decide

/-- C4 (amended): the first commit goes into slot 1, so insertWrapped is
still false after H-1 = 3 distinct commits and becomes true on the H-th
(4th) distinct commit, when insertIndex wraps from 3 to 0.  Immediately
after that wrap the oldest-ever entry ("a" in slot 1) is STILL reachable —
four up presses replay "d","c","b","a" — and it only becomes unreachable
on the (H+1)-th distinct commit, which overwrites slot 1 with "e". -/
theorem claim_C4 :
    sCommits3.historyInsertWrap = 0 ∧
    sCommits4.historyInsertWrap = 1 ∧
    ((runBytes sCommits4 [91, 65, 91, 65, 91, 65, 91, 65]).consoleInputBuffer 0 = 97 ∧
      (runBytes sCommits4 [91, 65, 91, 65, 91, 65, 91, 65]).inputPosition = 1) ∧
    (sCommits5.commandHistory 0 0 = 100 ∧ sCommits5.commandHistory 1 0 = 101 ∧
      sCommits5.commandHistory 2 0 = 98 ∧ sCommits5.commandHistory 3 0 = 99) := by
  decide
